import Mathlib

/-! Formal model of the `xorca-cloudevent` package: the `XOrcaCloudEvent` class
(`src/XOrcaCloudEvent/index.ts`), its constructor normalization, its derived
views, and the JSON serialization they rely on. JavaScript strings that may be
`undefined`/`null` are modelled as `Option String` (`none` covers both absent
and `null`, which the code never distinguishes: it only tests truthiness). -/

/-- A JSON value, as produced by `JSON.parse` and consumed by `JSON.stringify`.
Numbers are modelled as exact integers (the payloads in scope are
integer-valued records). -/
inductive JValue where
  | null : JValue
  | bool : Bool → JValue
  | num : Int → JValue
  | str : String → JValue
  | arr : List JValue → JValue
  | obj : List (String × JValue) → JValue

/-- A JavaScript object with string-keyed properties, carrying its
`Object.freeze` status explicitly ([[Extensible]] plus per-property
writability collapsed into one flag, which is exact for the whole-object
`Object.freeze` used by the code). -/
structure JSObj where
  entries : List (String × JValue)
  frozen : Bool

/-- Property update on an association list: overwrite in place if the key is
present, append otherwise (JavaScript property-creation order). -/
def entrySet : List (String × JValue) → String → JValue → List (String × JValue)
  | [], k, v => [(k, v)]
  | (k', v') :: tl, k, v =>
    if k' = k then (k, v) :: tl else (k', v') :: entrySet tl k v

/-- Property read on an association list. -/
def entryGet : List (String × JValue) → String → Option JValue
  | [], _ => none
  | (k', v') :: tl, k => if k' = k then some v' else entryGet tl k

/-- A property write `o[k] = v`, following ECMAScript OrdinarySet: on a frozen
object the write is rejected and the object is left unchanged (silently, in
non-strict code); otherwise the property is updated or created. -/
def JSObj.set (o : JSObj) (k : String) (v : JValue) : JSObj :=
  if o.frozen then o else { o with entries := entrySet o.entries k v }

/-- A property read `o[k]`. -/
def JSObj.get (o : JSObj) (k : String) : Option JValue :=
  entryGet o.entries k

/-- `Object.freeze(o)`: marks the object itself frozen. The freeze is shallow:
objects referenced by the properties are not touched. -/
def freezeObj (o : JSObj) : JSObj :=
  { o with frozen := true }

/-- JavaScript `a || b` on an optional string: `undefined`, `null` and the
empty string are falsy, so they select the default. -/
def jsOr (v : Option String) (d : String) : String :=
  match v with
  | some s => if s = "" then d else s
  | none => d

/-- JavaScript `a || null` on an optional string: a non-empty string passes
through, everything falsy becomes `null`. -/
def jsOrNull (v : Option String) : Option String :=
  match v with
  | some s => if s = "" then none else some s
  | none => none

/-- Lowercase hexadecimal digit for a nibble. -/
def hexChar (n : Nat) : Char :=
  match n with
  | 0 => '0' | 1 => '1' | 2 => '2' | 3 => '3' | 4 => '4'
  | 5 => '5' | 6 => '6' | 7 => '7' | 8 => '8' | 9 => '9'
  | 10 => 'a' | 11 => 'b' | 12 => 'c' | 13 => 'd' | 14 => 'e' | 15 => 'f'
  | _ => '0'

/-- Uppercase hexadecimal digit for a nibble (as emitted by `encodeURI`). -/
def hexCharUpper (n : Nat) : Char :=
  match n with
  | 0 => '0' | 1 => '1' | 2 => '2' | 3 => '3' | 4 => '4'
  | 5 => '5' | 6 => '6' | 7 => '7' | 8 => '8' | 9 => '9'
  | 10 => 'A' | 11 => 'B' | 12 => 'C' | 13 => 'D' | 14 => 'E' | 15 => 'F'
  | _ => '0'

/-- UTF-8 byte sequence of a code point. -/
def utf8Bytes (n : Nat) : List Nat :=
  if n < 128 then [n]
  else if n < 2048 then [192 + n / 64, 128 + n % 64]
  else if n < 65536 then [224 + n / 4096, 128 + n / 64 % 64, 128 + n % 64]
  else [240 + n / 262144, 128 + n / 4096 % 64, 128 + n / 64 % 64, 128 + n % 64]

/-- The characters ECMAScript `encodeURI` leaves unescaped: ASCII letters and
digits, the marks, the URI-reserved characters, and `#`. -/
def uriUnescaped (c : Char) : Bool :=
  (65 ≤ c.toNat && c.toNat ≤ 90) || (97 ≤ c.toNat && c.toNat ≤ 122) ||
  (48 ≤ c.toNat && c.toNat ≤ 57) ||
  ([';', '/', '?', ':', '@', '&', '=', '+', '$', ',',
    '-', '_', '.', '!', '~', '*', '\'', '(', ')', '#'].contains c)

/-- Percent-encoding of one character: each UTF-8 byte as `%XX` (uppercase). -/
def pctEncodeChar (c : Char) : List Char :=
  (utf8Bytes c.toNat).foldr
    (fun b acc => '%' :: hexCharUpper (b / 16) :: hexCharUpper (b % 16) :: acc) []

/-- One character of `encodeURI` output. -/
def encChar (c : Char) : List Char :=
  if uriUnescaped c then [c] else pctEncodeChar c

/-- ECMAScript `encodeURI`: percent-encodes characters outside the URI
character set, leaving reserved characters (such as `/`) unchanged. -/
def encodeURI (s : String) : String :=
  String.mk (s.data.foldr (fun c acc => encChar c ++ acc) [])

/-- Two lowercase hex digits of a byte. -/
def hexByte (b : Nat) : List Char :=
  [hexChar (b / 16 % 16), hexChar (b % 16)]

/-- Models the `uuid` package's `v4()` generator (an external dependency):
sixteen random bytes, with the version nibble of byte 6 forced to `4` and the
variant bits of byte 8 forced to `10`, printed as lowercase hex in
8-4-4-4-12 groups. `(b & 0x0f) | 0x40` is written `64 + b % 16` and
`(b & 0x3f) | 0x80` is written `128 + b % 64` (equal, as the or-ed bits are
disjoint). The byte source is a parameter, making generation deterministic
under a fixed source. -/
def uuidv4 (rnd : Nat → Nat) : String :=
  String.mk
    (hexByte (rnd 0 % 256) ++ hexByte (rnd 1 % 256) ++
     hexByte (rnd 2 % 256) ++ hexByte (rnd 3 % 256) ++
     ['-'] ++ hexByte (rnd 4 % 256) ++ hexByte (rnd 5 % 256) ++
     ['-'] ++ hexByte (64 + rnd 6 % 16) ++ hexByte (rnd 7 % 256) ++
     ['-'] ++ hexByte (128 + rnd 8 % 64) ++ hexByte (rnd 9 % 256) ++
     ['-'] ++ hexByte (rnd 10 % 256) ++ hexByte (rnd 11 % 256) ++
     hexByte (rnd 12 % 256) ++ hexByte (rnd 13 % 256) ++
     hexByte (rnd 14 % 256) ++ hexByte (rnd 15 % 256))

/-- Modelled from the spec: `convertToISOString` (from
`./XOrcaCloudEvent/utils`, a repository file not present under `src/`)
normalizes a timestamp-like input to an ISO-8601 string and, via the
schema-level default, falls back to the current time when the input is absent.
The current time is a parameter `nowISO`; an already-normalized string input
is returned as is. -/
def convertToISOString (t : Option String) (nowISO : String) : String :=
  match t with
  | some s => s
  | none => nowISO

/-- The canonical default content type (constructor line 48). -/
def defaultDataContentType : String :=
  "application/cloudevents+json; charset=UTF-8; profile=xorca"

/-- The raw candidate record accepted by the constructor
(`zod.infer<typeof XOrcaCloudEventSchema>`), at its runtime value domain:
optional fields may be absent/null (`none`) or any string. -/
structure XOrcaCloudEventInput where
  id : Option String
  type : String
  source : String
  specversion : Option String
  datacontenttype : Option String
  subject : String
  time : Option String
  data : JSObj
  «to» : Option String
  redirectto : Option String
  traceparent : Option String
  tracestate : Option String
  elapsedtime : Option String
  executionunits : Option String

/-- The constructor's declared TypeScript input type constrains `specversion`
to the literal type of the class field, so a type-correct (schema-validated)
caller can only supply `"1.0"` or omit the field. -/
def specversionTyped (e : XOrcaCloudEventInput) : Prop :=
  e.specversion = none ∨ e.specversion = some ("1.0")

/-- The constructed event value: the fourteen declared fields of the class. -/
structure XOrcaCloudEvent where
  id : String
  type : String
  source : String
  specversion : String
  datacontenttype : String
  subject : String
  time : String
  data : JSObj
  redirectto : Option String
  «to» : Option String
  traceparent : Option String
  tracestate : Option String
  elapsedtime : Option String
  executionunits : Option String

/-- The constructor body (lines 43-58), one field per assignment:
`id = event.id || uuidv4()`, `time = convertToISOString(event.time)`,
`type`, `source = encodeURI(event.source)`, `datacontenttype` defaulted,
`subject`, `data`, `specversion` defaulted, `to`/`redirectto` encoded when
truthy else null, and the four trace/metric fields `x || null`. The random
byte source and the current time are the constructor's two ambient inputs,
passed explicitly. -/
def mkXOrcaCloudEvent (rnd : Nat → Nat) (nowISO : String)
    (event : XOrcaCloudEventInput) : XOrcaCloudEvent :=
  { id := jsOr event.id (uuidv4 rnd)
    time := convertToISOString event.time nowISO
    type := event.type
    source := encodeURI event.source
    datacontenttype := jsOr event.datacontenttype defaultDataContentType
    subject := event.subject
    data := event.data
    specversion := jsOr event.specversion ("1.0")
    «to» := match event.«to» with
          | some s => if s = "" then none else some (encodeURI s)
          | none => none
    redirectto := match event.redirectto with
                  | some s => if s = "" then none else some (encodeURI s)
                  | none => none
    traceparent := jsOrNull event.traceparent
    tracestate := jsOrNull event.tracestate
    elapsedtime := jsOrNull event.elapsedtime
    executionunits := jsOrNull event.executionunits }

/-- An optional string as a JSON value (`null` for `none`). -/
def optStr : Option String → JValue
  | some s => JValue.str s
  | none => JValue.null

/-- `toJSON()` returns the plain-object snapshot `{...this}`: the fourteen own
properties in their creation order (the constructor's assignment order). -/
def XOrcaCloudEvent.toJSON (ev : XOrcaCloudEvent) : List (String × JValue) :=
  [("id", JValue.str ev.id),
   ("time", JValue.str ev.time),
   ("type", JValue.str ev.type),
   ("source", JValue.str ev.source),
   ("datacontenttype", JValue.str ev.datacontenttype),
   ("subject", JValue.str ev.subject),
   ("data", JValue.obj ev.data.entries),
   ("specversion", JValue.str ev.specversion),
   ("to", optStr ev.«to»),
   ("redirectto", optStr ev.redirectto),
   ("traceparent", optStr ev.traceparent),
   ("tracestate", optStr ev.tracestate),
   ("elapsedtime", optStr ev.elapsedtime),
   ("executionunits", optStr ev.executionunits)]

/-- The event's snapshot as a single JSON value. -/
def XOrcaCloudEvent.toJSONValue (ev : XOrcaCloudEvent) : JValue :=
  JValue.obj ev.toJSON

/-- The `xorcaExtensions` getter: exactly the six extension fields, in source
order. -/
def XOrcaCloudEvent.xorcaExtensions (ev : XOrcaCloudEvent) :
    List (String × Option String) :=
  [("to", ev.«to»),
   ("redirectto", ev.redirectto),
   ("traceparent", ev.traceparent),
   ("tracestate", ev.tracestate),
   ("executionunits", ev.executionunits),
   ("elapsedtime", ev.elapsedtime)]

/-- The `extensionFields` getter: `Object.keys(this.xorcaExtensions)`. -/
def XOrcaCloudEvent.extensionFields (ev : XOrcaCloudEvent) : List String :=
  ev.xorcaExtensions.map Prod.fst

/-- The `cloudevent` getter: the `toJSON()` entries filtered to those whose
key is not an extension field. -/
def XOrcaCloudEvent.cloudevent (ev : XOrcaCloudEvent) : List (String × JValue) :=
  ev.toJSON.filter (fun kv => !(ev.extensionFields.contains kv.1))

/-- The fourteen declared fields of the class, in declaration order. -/
def declaredFields : List String :=
  ["id", "type", "source", "specversion", "datacontenttype", "subject",
   "time", "data", "to", "redirectto", "traceparent", "tracestate",
   "elapsedtime", "executionunits"]

/-- JavaScript `s || ''` on a string. -/
def strOrEmpty (s : String) : String :=
  if s = "" then "" else s

/-- JavaScript `x || ''` on a nullable string. -/
def optOrEmpty (v : Option String) : String :=
  match v with
  | some s => if s = "" then "" else s
  | none => ""

/-- The `openTelemetryAttributes()` method: the nine fixed attribute keys in
source order, each `field || ''`. -/
def XOrcaCloudEvent.openTelemetryAttributes (ev : XOrcaCloudEvent) :
    List (String × String) :=
  [("cloudevents.event_id", strOrEmpty ev.id),
   ("cloudevents.event_source", strOrEmpty ev.source),
   ("cloudevents.event_spec_version", strOrEmpty ev.specversion),
   ("cloudevents.event_subject", strOrEmpty ev.subject),
   ("cloudevents.event_type", strOrEmpty ev.type),
   ("cloudevents.xorca.event_redirectto", optOrEmpty ev.redirectto),
   ("cloudevents.xorca.event_to", optOrEmpty ev.«to»),
   ("cloudevents.xorca.event_executionunits", optOrEmpty ev.executionunits),
   ("cloudevents.xorca.event_elapsedtime", optOrEmpty ev.elapsedtime)]

/-- The constructed event as the runtime object the caller holds: its own
properties, frozen by the constructor's final `Object.freeze(this)` (line 59).
The payload object behind `data` is a separate object and is not frozen by
this call. -/
def mkXOrcaCloudEventObj (rnd : Nat → Nat) (nowISO : String)
    (event : XOrcaCloudEventInput) : JSObj :=
  freezeObj { entries := (mkXOrcaCloudEvent rnd nowISO event).toJSON,
              frozen := false }

/-! JSON serialization: a model of `JSON.stringify` (default options, no
spacing) and `JSON.parse` over `JValue`. -/

/-- One string character, escaped as `JSON.stringify` escapes it: quote and
backslash, the named control escapes, `\u00xx` for the remaining control
characters, everything else literal. -/
def escJChar (c : Char) : List Char :=
  if c = '"' then ['\\', '"']
  else if c = '\\' then ['\\', '\\']
  else if c.toNat = 8 then ['\\', 'b']
  else if c.toNat = 9 then ['\\', 't']
  else if c.toNat = 10 then ['\\', 'n']
  else if c.toNat = 12 then ['\\', 'f']
  else if c.toNat = 13 then ['\\', 'r']
  else if c.toNat < 32 then
    ['\\', 'u', '0', '0', hexChar (c.toNat / 16), hexChar (c.toNat % 16)]
  else [c]

/-- A whole string body, escaped. -/
def escJString (l : List Char) : List Char :=
  l.foldr (fun c acc => escJChar c ++ acc) []

/-- A JSON string literal: quoted, escaped body. -/
def printJString (s : String) : List Char :=
  '"' :: (escJString s.data ++ ['"'])

/-- Decimal digits of a natural number, most significant first. -/
def decChars (n : Nat) : List Char :=
  if n < 10 then [hexChar n]
  else decChars (n / 10) ++ [hexChar (n % 10)]
termination_by n
decreasing_by omega

/-- Decimal form of an integer: optional minus sign, then digits. -/
def intChars (i : Int) : List Char :=
  if i < 0 then '-' :: decChars i.natAbs else decChars i.natAbs

mutual
/-- `JSON.stringify` output of a value, as a character list. -/
def printJ : JValue → List Char
  | JValue.null => ['n', 'u', 'l', 'l']
  | JValue.bool true => ['t', 'r', 'u', 'e']
  | JValue.bool false => ['f', 'a', 'l', 's', 'e']
  | JValue.num i => intChars i
  | JValue.str s => printJString s
  | JValue.arr [] => ['[', ']']
  | JValue.arr (v :: tl) => '[' :: (printJ v ++ (sepItems tl ++ [']']))
  | JValue.obj [] => ['{', '}']
  | JValue.obj ((k, v) :: tl) =>
    '{' :: (printJString k ++ (':' :: (printJ v ++ (sepMems tl ++ ['}']))))
/-- Comma-prefixed continuation of an array's elements. -/
def sepItems : List JValue → List Char
  | [] => []
  | v :: tl => ',' :: (printJ v ++ sepItems tl)
/-- Comma-prefixed continuation of an object's members. -/
def sepMems : List (String × JValue) → List Char
  | [] => []
  | (k, v) :: tl => ',' :: (printJString k ++ (':' :: (printJ v ++ sepMems tl)))
end

/-- `JSON.stringify` as a string-valued function. -/
def stringifyJ (v : JValue) : String :=
  String.mk (printJ v)

/-- Numeric value of a decimal digit character. -/
def digitVal (c : Char) : Nat :=
  c.toNat - 48

/-- Consume a run of decimal digits, folding them onto an accumulator. -/
def readDigits (acc : Nat) : List Char → Nat × List Char
  | c :: cs => if c.isDigit then readDigits (10 * acc + digitVal c) cs else (acc, c :: cs)
  | [] => (acc, [])

/-- Read a natural number literal: at least one digit. -/
def readNat : List Char → Option (Nat × List Char)
  | c :: cs => if c.isDigit then some (readDigits 0 (c :: cs)) else none
  | [] => none

/-- Whether the input does not continue with a digit (so that a number
literal before it ends there). -/
def headNotDigit : List Char → Bool
  | [] => true
  | c :: _ => !c.isDigit

/-- Value of one hexadecimal digit character, if it is one. -/
def hexNibble (c : Char) : Option Nat :=
  if 48 ≤ c.toNat && c.toNat ≤ 57 then some (c.toNat - 48)
  else if 97 ≤ c.toNat && c.toNat ≤ 102 then some (c.toNat - 87)
  else if 65 ≤ c.toNat && c.toNat ≤ 70 then some (c.toNat - 55)
  else none

/-- Decode a single-character escape (the `\u` form is handled separately). -/
def unescJ (e : Char) : Option Char :=
  if e = '"' then some '"'
  else if e = '\\' then some '\\'
  else if e = '/' then some '/'
  else if e = 'b' then some (Char.ofNat 8)
  else if e = 't' then some (Char.ofNat 9)
  else if e = 'n' then some (Char.ofNat 10)
  else if e = 'f' then some (Char.ofNat 12)
  else if e = 'r' then some (Char.ofNat 13)
  else none

/-- Parse a string body after the opening quote, up to and over the closing
quote, decoding escapes. -/
def readStringBody : List Char → Option (List Char × List Char)
  | [] => none
  | c :: cs =>
    if c = '"' then some ([], cs)
    else if c = '\\' then
      match cs with
      | [] => none
      | e :: cs2 =>
        if e = 'u' then
          match cs2 with
          | h1 :: h2 :: h3 :: h4 :: cs3 =>
            match hexNibble h1, hexNibble h2, hexNibble h3, hexNibble h4 with
            | some a, some b, some x, some y =>
              (readStringBody cs3).map
                (fun p => (Char.ofNat (((a * 16 + b) * 16 + x) * 16 + y) :: p.1, p.2))
            | _, _, _, _ => none
          | _ => none
        else
          match unescJ e with
          | some d => (readStringBody cs2).map (fun p => (d :: p.1, p.2))
          | none => none
    else (readStringBody cs).map (fun p => (c :: p.1, p.2))

mutual
/-- Parse one JSON value (fuel bounds the nesting the parser will enter). -/
def jval : Nat → List Char → Option (JValue × List Char)
  | 0, _ => none
  | f + 1, cs =>
    match cs with
    | 'n' :: 'u' :: 'l' :: 'l' :: r => some (JValue.null, r)
    | 't' :: 'r' :: 'u' :: 'e' :: r => some (JValue.bool true, r)
    | 'f' :: 'a' :: 'l' :: 's' :: 'e' :: r => some (JValue.bool false, r)
    | '"' :: r => (readStringBody r).map (fun p => (JValue.str (String.mk p.1), p.2))
    | '[' :: r =>
      match r with
      | [] => none
      | c :: r2 =>
        if c = ']' then some (JValue.arr [], r2)
        else (jitems f (c :: r2)).map (fun p => (JValue.arr p.1, p.2))
    | '{' :: r =>
      match r with
      | [] => none
      | c :: r2 =>
        if c = '}' then some (JValue.obj [], r2)
        else (jmems f (c :: r2)).map (fun p => (JValue.obj p.1, p.2))
    | '-' :: r => (readNat r).map (fun p => (JValue.num (-(p.1 : Int)), p.2))
    | r => (readNat r).map (fun p => (JValue.num (p.1 : Int), p.2))
/-- Parse the elements of a non-empty array, consuming the closing bracket. -/
def jitems : Nat → List Char → Option (List JValue × List Char)
  | 0, _ => none
  | f + 1, cs =>
    match jval f cs with
    | none => none
    | some (v, r) =>
      match r with
      | ',' :: r2 => (jitems f r2).map (fun p => (v :: p.1, p.2))
      | ']' :: r2 => some ([v], r2)
      | _ => none
/-- Parse the members of a non-empty object, consuming the closing brace. -/
def jmems : Nat → List Char → Option (List (String × JValue) × List Char)
  | 0, _ => none
  | f + 1, cs =>
    match cs with
    | '"' :: r =>
      match readStringBody r with
      | none => none
      | some (k, r1) =>
        match r1 with
        | ':' :: r2 =>
          match jval f r2 with
          | none => none
          | some (v, r3) =>
            match r3 with
            | ',' :: r4 => (jmems f r4).map (fun p => ((String.mk k, v) :: p.1, p.2))
            | '}' :: r4 => some ([(String.mk k, v)], r4)
            | _ => none
        | _ => none
    | _ => none
end

/-- `JSON.parse`: parse a complete document, rejecting trailing characters.
The fuel is ample: nesting can never exceed the input length. -/
def JSONParse (s : String) : Option JValue :=
  match jval (s.data.length + 1) s.data with
  | some (v, []) => some v
  | _ => none

/-- The `toString()` method: `JSON.stringify(this.toJSON())`. -/
def XOrcaCloudEvent.toString (ev : XOrcaCloudEvent) : String :=
  stringifyJ ev.toJSONValue

/-! A checker for the version-4 UUID shape, used to state what the generated
id looks like: five hyphen-separated hex groups of sizes 8-4-4-4-12, with the
version digit `4` and a variant digit in `8`/`9`/`a`/`b`. -/

/-- Hexadecimal digit characters (either case). -/
def isHexDigitCh (c : Char) : Bool :=
  (48 ≤ c.toNat && c.toNat ≤ 57) || (97 ≤ c.toNat && c.toNat ≤ 102) ||
  (65 ≤ c.toNat && c.toNat ≤ 70)

/-- Consume exactly `k` hexadecimal digits. -/
def hexRun : Nat → List Char → Option (List Char)
  | 0, cs => some cs
  | k + 1, c :: cs => if isHexDigitCh c then hexRun k cs else none
  | _ + 1, [] => none

/-- Consume one expected character. -/
def expectCh (c : Char) : List Char → Option (List Char)
  | x :: r => if x = c then some r else none
  | [] => none

/-- Consume one character from a set of candidates. -/
def expectIn (cands : List Char) : List Char → Option (List Char)
  | x :: r => if cands.contains x then some r else none
  | [] => none

/-- Whether a string is shaped like a version-4 UUID: hex groups of sizes
8-4-4-4-12 separated by hyphens, the third group starting with `4` and the
fourth with a variant digit. -/
def isUUIDv4 (s : String) : Bool :=
  (Option.bind (hexRun 8 s.data) (fun r0 =>
   Option.bind (expectCh '-' r0) (fun r1 =>
   Option.bind (hexRun 4 r1) (fun r2 =>
   Option.bind (expectCh '-' r2) (fun r3 =>
   Option.bind (expectCh '4' r3) (fun r4 =>
   Option.bind (hexRun 3 r4) (fun r5 =>
   Option.bind (expectCh '-' r5) (fun r6 =>
   Option.bind (expectIn ['8', '9', 'a', 'b'] r6) (fun r7 =>
   Option.bind (hexRun 3 r7) (fun r8 =>
   Option.bind (expectCh '-' r8) (fun r9 =>
   Option.bind (hexRun 12 r9) (fun r10 =>
   if r10.isEmpty then some () else none)))))))))))).isSome

/-! Concrete fixtures for counterexamples and witnesses. -/

/-- The end-to-end example input: `{type, source, subject, data}` only. -/
def orderCreatedInput : XOrcaCloudEventInput :=
  { id := none, type := "order.created", source := "svc/orders",
    specversion := none, datacontenttype := none, subject := "order-42",
    time := none,
    data := { entries := [("amount", JValue.num 10)], frozen := false },
    «to» := none, redirectto := none, traceparent := none, tracestate := none,
    elapsedtime := none, executionunits := none }

/-- A fixed byte source, for concrete instantiations. -/
def zeroRnd : Nat → Nat :=
  fun _ => 0

/-- A fixed clock reading, for concrete instantiations. -/
def sampleNow : String :=
  "2026-01-01T00:00:00.000Z"

/-! Theorems. General helper lemmas first, then one theorem per claim. -/

/-- The character list underlying a literal string value. -/
theorem data_mk (l : List Char) : (String.mk l).data = l :=
  rfl

/-- `s || ''` is the identity on strings. -/
theorem strOrEmpty_eq (s : String) : strOrEmpty s = s := by
  by_cases h : s = "" <;> simp [strOrEmpty, h]

/-- `x || ''` on a nullable string is `getD ""`. -/
theorem optOrEmpty_eq (v : Option String) : optOrEmpty v = v.getD "" := by
  cases v with
  | none => rfl
  | some s => by_cases h : s = "" <;> simp [optOrEmpty, h]

/-- Reading a key back after writing it yields the written value. -/
theorem entryGet_entrySet (l : List (String × JValue)) (k : String) (v : JValue) :
    entryGet (entrySet l k v) k = some v := by
  induction l with
  | nil => simp [entrySet, entryGet]
  | cons hd tl ih =>
    by_cases h : hd.1 = k <;> simp [entrySet, entryGet, h, ih]

/-- Every nibble prints as a hexadecimal digit character. -/
theorem hexChar_isHex (n : Nat) (h : n < 16) : isHexDigitCh (hexChar n) = true := by
  interval_cases n <;> decide

/-- Both digits of a printed byte are hexadecimal digit characters. -/
theorem hexByte_isHex (b : Nat) : ∀ c ∈ hexByte b, isHexDigitCh c = true := by
  intro c hc
  simp [hexByte] at hc
  rcases hc with rfl | rfl
  · exact hexChar_isHex _ (Nat.mod_lt _ (by omega))
  · exact hexChar_isHex _ (Nat.mod_lt _ (by omega))

/-- `hexRun` consumes exactly a run of hexadecimal digits. -/
theorem hexRun_all (l : List Char) (cs : List Char)
    (h : ∀ c ∈ l, isHexDigitCh c = true) : hexRun l.length (l ++ cs) = some cs := by
  induction l with
  | nil => rfl
  | cons c tl ih =>
    have hc := h c (List.mem_cons_self c tl)
    simp [hexRun, hc, ih (fun x hx => h x (List.mem_cons_of_mem c hx))]


/-- `hexRun` at an explicitly given length. -/
theorem hexRun_of_len (k : Nat) (l cs : List Char) (hlen : l.length = k)
    (h : ∀ c ∈ l, isHexDigitCh c = true) : hexRun k (l ++ cs) = some cs := by
  subst hlen
  exact hexRun_all l cs h

/-- Eight hex digits: four printed bytes. -/
theorem hexRun8_bytes (b0 b1 b2 b3 : Nat) (rest : List Char) :
    hexRun 8 (hexByte b0 ++ (hexByte b1 ++ (hexByte b2 ++ (hexByte b3 ++ rest)))) =
      some rest := by
  have hg : ∀ c ∈ hexByte b0 ++ hexByte b1 ++ hexByte b2 ++ hexByte b3,
      isHexDigitCh c = true := by
    intro c hc
    simp only [List.mem_append] at hc
    rcases hc with ((hc | hc) | hc) | hc <;> exact hexByte_isHex _ c hc
  simpa [List.append_assoc] using
    hexRun_of_len 8 (hexByte b0 ++ hexByte b1 ++ hexByte b2 ++ hexByte b3) rest
      (by simp [hexByte]) hg

/-- Four hex digits: two printed bytes. -/
theorem hexRun4_bytes (b4 b5 : Nat) (rest : List Char) :
    hexRun 4 (hexByte b4 ++ (hexByte b5 ++ rest)) = some rest := by
  have hg : ∀ c ∈ hexByte b4 ++ hexByte b5, isHexDigitCh c = true := by
    intro c hc
    simp only [List.mem_append] at hc
    rcases hc with hc | hc <;> exact hexByte_isHex _ c hc
  simpa [List.append_assoc] using
    hexRun_of_len 4 (hexByte b4 ++ hexByte b5) rest (by simp [hexByte]) hg

/-- Three hex digits: a nibble character and a printed byte. -/
theorem hexRun3_nibble (x b : Nat) (rest : List Char) :
    hexRun 3 (hexChar (x % 16) :: (hexByte b ++ rest)) = some rest := by
  have hg : ∀ c ∈ hexChar (x % 16) :: hexByte b, isHexDigitCh c = true := by
    intro c hc
    rcases List.mem_cons.mp hc with rfl | hc
    · exact hexChar_isHex _ (Nat.mod_lt _ (by omega))
    · exact hexByte_isHex _ c hc
  simpa [List.append_assoc] using
    hexRun_of_len 3 (hexChar (x % 16) :: hexByte b) rest (by simp [hexByte]) hg

/-- Twelve hex digits: six printed bytes, ending the input. -/
theorem hexRun12_bytes (b10 b11 b12 b13 b14 b15 : Nat) :
    hexRun 12 (hexByte b10 ++ (hexByte b11 ++ (hexByte b12 ++ (hexByte b13 ++
      (hexByte b14 ++ hexByte b15))))) = some [] := by
  have hg : ∀ c ∈ hexByte b10 ++ hexByte b11 ++ hexByte b12 ++ hexByte b13 ++
      hexByte b14 ++ hexByte b15, isHexDigitCh c = true := by
    intro c hc
    simp only [List.mem_append] at hc
    rcases hc with ((((hc | hc) | hc) | hc) | hc) | hc <;> exact hexByte_isHex _ c hc
  simpa [List.append_assoc] using
    hexRun_of_len 12 (hexByte b10 ++ hexByte b11 ++ hexByte b12 ++ hexByte b13 ++
      hexByte b14 ++ hexByte b15) [] (by simp [hexByte]) hg

/-- Nibble characters at the concrete values the check inspects. -/
theorem hexChar_four : hexChar 4 = '4' :=
  rfl

/-- Nibble character at value eight. -/
theorem hexChar_eight : hexChar 8 = '8' :=
  rfl

/-- Nibble character at value nine. -/
theorem hexChar_nine : hexChar 9 = '9' :=
  rfl

/-- Nibble character at value ten. -/
theorem hexChar_ten : hexChar 10 = 'a' :=
  rfl

/-- Nibble character at value eleven. -/
theorem hexChar_eleven : hexChar 11 = 'b' :=
  rfl

/-- Any byte assembly with a forced version nibble `4` and forced variant bits
`10` passes the UUIDv4 shape check. -/
theorem uuid_shape (b0 b1 b2 b3 b4 b5 m b7 k b9 b10 b11 b12 b13 b14 b15 : Nat)
    (hm : m < 16) (hk : k < 64) :
    isUUIDv4 (String.mk
      (hexByte b0 ++ hexByte b1 ++ hexByte b2 ++ hexByte b3 ++
       ['-'] ++ hexByte b4 ++ hexByte b5 ++
       ['-'] ++ hexByte (64 + m) ++ hexByte b7 ++
       ['-'] ++ hexByte (128 + k) ++ hexByte b9 ++
       ['-'] ++ hexByte b10 ++ hexByte b11 ++
       hexByte b12 ++ hexByte b13 ++ hexByte b14 ++ hexByte b15)) = true := by
  have hver : (64 + m) / 16 % 16 = 4 := by omega
  have hvar : (128 + k) / 16 % 16 = 8 ∨ (128 + k) / 16 % 16 = 9 ∨
      (128 + k) / 16 % 16 = 10 ∨ (128 + k) / 16 % 16 = 11 := by omega
  unfold isUUIDv4
  rw [data_mk]
  have hshape :
      hexByte b0 ++ hexByte b1 ++ hexByte b2 ++ hexByte b3 ++
       ['-'] ++ hexByte b4 ++ hexByte b5 ++
       ['-'] ++ hexByte (64 + m) ++ hexByte b7 ++
       ['-'] ++ hexByte (128 + k) ++ hexByte b9 ++
       ['-'] ++ hexByte b10 ++ hexByte b11 ++
       hexByte b12 ++ hexByte b13 ++ hexByte b14 ++ hexByte b15 =
      (hexByte b0 ++ hexByte b1 ++ hexByte b2 ++ hexByte b3) ++
      ('-' :: ((hexByte b4 ++ hexByte b5) ++
      ('-' :: (hexChar ((64 + m) / 16 % 16) ::
      ((hexChar ((64 + m) % 16) :: hexByte b7) ++
      ('-' :: (hexChar ((128 + k) / 16 % 16) ::
      ((hexChar ((128 + k) % 16) :: hexByte b9) ++
      ('-' :: (hexByte b10 ++ hexByte b11 ++ hexByte b12 ++ hexByte b13 ++
               hexByte b14 ++ hexByte b15)))))))))) := by
    simp [hexByte]
  rw [hshape, hver]
  rcases hvar with hv | hv | hv | hv <;>
    rw [hv] <;>
    simp [hexRun8_bytes, hexRun4_bytes, hexRun3_nibble, hexRun12_bytes,
      hexChar_four, hexChar_eight, hexChar_nine, hexChar_ten, hexChar_eleven,
      expectCh, expectIn, Option.bind]

/-- The generated id always has the version-4 UUID shape. -/
theorem uuidv4_valid (rnd : Nat → Nat) : isUUIDv4 (uuidv4 rnd) = true :=
  uuid_shape (rnd 0 % 256) (rnd 1 % 256) (rnd 2 % 256) (rnd 3 % 256)
    (rnd 4 % 256) (rnd 5 % 256) (rnd 6 % 16) (rnd 7 % 256) (rnd 8 % 64)
    (rnd 9 % 256) (rnd 10 % 256) (rnd 11 % 256) (rnd 12 % 256) (rnd 13 % 256)
    (rnd 14 % 256) (rnd 15 % 256)
    (Nat.mod_lt _ (by omega)) (Nat.mod_lt _ (by omega))

/-- The generated id is never the empty string. -/
theorem uuidv4_ne_empty (rnd : Nat → Nat) : uuidv4 rnd ≠ "" := by
  simp [uuidv4, hexByte, String.ext_iff]

/-- The keys of the `cloudevent` projection, independent of field values. -/
theorem cloudevent_keys (ev : XOrcaCloudEvent) :
    ev.cloudevent.map Prod.fst =
      ["id", "time", "type", "source", "datacontenttype", "subject", "data",
       "specversion"] := by
  simp [XOrcaCloudEvent.cloudevent, XOrcaCloudEvent.toJSON,
    XOrcaCloudEvent.extensionFields, XOrcaCloudEvent.xorcaExtensions,
    List.filter]

/-- C2: for every input record accepted by the constructor (whose declared
type confines `specversion` to the literal `"1.0"` or absence), the
constructed event's `specversion` equals `"1.0"`. -/
theorem C2_specversion_always_one_zero (rnd : Nat → Nat) (nowISO : String)
    (e : XOrcaCloudEventInput) (h : specversionTyped e) :
    (mkXOrcaCloudEvent rnd nowISO e).specversion = "1.0" := by
  rcases h with h | h <;> simp [mkXOrcaCloudEvent, jsOr, h]

/-- C2 witness: the example record, which omits `specversion`. -/
theorem C2_specversion_witness :
    (mkXOrcaCloudEvent zeroRnd sampleNow orderCreatedInput).specversion = "1.0" :=
  C2_specversion_always_one_zero zeroRnd sampleNow orderCreatedInput (Or.inl rfl)

/-- C4: for every constructed event, the `cloudevent` keys and
`extensionFields` are disjoint, together they cover the fourteen declared
fields exactly once, and `extensionFields` is exactly the six extension
names. -/
theorem C4_partition_complete (ev : XOrcaCloudEvent) :
    ((ev.cloudevent.map Prod.fst).filter
      (fun k => ev.extensionFields.contains k)) = [] ∧
    (ev.cloudevent.map Prod.fst ++ ev.extensionFields).Perm declaredFields ∧
    declaredFields.Nodup ∧
    ev.extensionFields = ["to", "redirectto", "traceparent", "tracestate",
      "executionunits", "elapsedtime"] := by
  have hk := cloudevent_keys ev
  have he : ev.extensionFields = ["to", "redirectto", "traceparent",
      "tracestate", "executionunits", "elapsedtime"] := rfl
  refine ⟨?_, ?_, by decide, he⟩
  · rw [hk, he]
    decide
  · rw [hk, he]
    decide

/-- C5: `openTelemetryAttributes()` has exactly the nine fixed keys, each
bound to the corresponding field (`''` in place of null), and a null
extension field yields the empty string, never the string `"null"`. -/
theorem C5_otel_attributes (ev : XOrcaCloudEvent) :
    ev.openTelemetryAttributes.map Prod.fst =
      ["cloudevents.event_id", "cloudevents.event_source",
       "cloudevents.event_spec_version", "cloudevents.event_subject",
       "cloudevents.event_type", "cloudevents.xorca.event_redirectto",
       "cloudevents.xorca.event_to", "cloudevents.xorca.event_executionunits",
       "cloudevents.xorca.event_elapsedtime"] ∧
    ev.openTelemetryAttributes =
      [("cloudevents.event_id", ev.id),
       ("cloudevents.event_source", ev.source),
       ("cloudevents.event_spec_version", ev.specversion),
       ("cloudevents.event_subject", ev.subject),
       ("cloudevents.event_type", ev.type),
       ("cloudevents.xorca.event_redirectto", ev.redirectto.getD ""),
       ("cloudevents.xorca.event_to", ev.«to».getD ""),
       ("cloudevents.xorca.event_executionunits", ev.executionunits.getD ""),
       ("cloudevents.xorca.event_elapsedtime", ev.elapsedtime.getD "")] ∧
    (ev.«to» = none →
      ev.openTelemetryAttributes.lookup ("cloudevents.xorca.event_to") =
        some "" ∧
      ev.openTelemetryAttributes.lookup ("cloudevents.xorca.event_to") ≠
        some "null") ∧
    (ev.redirectto = none →
      ev.openTelemetryAttributes.lookup ("cloudevents.xorca.event_redirectto") =
        some "" ∧
      ev.openTelemetryAttributes.lookup ("cloudevents.xorca.event_redirectto") ≠
        some "null") ∧
    (ev.elapsedtime = none →
      ev.openTelemetryAttributes.lookup ("cloudevents.xorca.event_elapsedtime") =
        some "" ∧
      ev.openTelemetryAttributes.lookup ("cloudevents.xorca.event_elapsedtime") ≠
        some "null") ∧
    (ev.executionunits = none →
      ev.openTelemetryAttributes.lookup
          ("cloudevents.xorca.event_executionunits") = some "" ∧
      ev.openTelemetryAttributes.lookup
          ("cloudevents.xorca.event_executionunits") ≠ some "null") := by
  refine ⟨rfl, ?_, ?_, ?_, ?_, ?_⟩
  · simp [XOrcaCloudEvent.openTelemetryAttributes, strOrEmpty_eq, optOrEmpty_eq]
  all_goals
    intro h
    simp [XOrcaCloudEvent.openTelemetryAttributes, List.lookup, h, optOrEmpty]

/-- C5 witness: a concrete constructed event with all four nullable
telemetry fields null. -/
theorem C5_otel_attributes_witness :
    (mkXOrcaCloudEvent zeroRnd sampleNow
        orderCreatedInput).openTelemetryAttributes.lookup
      ("cloudevents.xorca.event_to") = some "" :=
  (((C5_otel_attributes
      (mkXOrcaCloudEvent zeroRnd sampleNow orderCreatedInput)).2.2).1 rfl).1

/-- C6: the constructed event object is frozen, so a property write to any of
its fields leaves every subsequent read, and the object itself, unchanged. -/
theorem C6_frozen_fields_immutable (rnd : Nat → Nat) (nowISO : String)
    (e : XOrcaCloudEventInput) (k : String) (v : JValue) :
    ((mkXOrcaCloudEventObj rnd nowISO e).set k v).get k =
      (mkXOrcaCloudEventObj rnd nowISO e).get k ∧
    (mkXOrcaCloudEventObj rnd nowISO e).set k v =
      mkXOrcaCloudEventObj rnd nowISO e := by
  have hset : (mkXOrcaCloudEventObj rnd nowISO e).set k v =
      mkXOrcaCloudEventObj rnd nowISO e := by
    simp [JSObj.set, mkXOrcaCloudEventObj, freezeObj]
  exact ⟨by rw [hset], hset⟩

/-- C10: `Object.freeze(this)` is shallow: the payload object behind `data`
passes through the constructor untouched, and while the caller has not frozen
it, writing a key inside `data` changes the subsequent read of that key. -/
theorem C10_freeze_shallow_data_mutable (rnd : Nat → Nat) (nowISO : String)
    (e : XOrcaCloudEventInput) (k : String) (v : JValue)
    (h : e.data.frozen = false) :
    (mkXOrcaCloudEvent rnd nowISO e).data = e.data ∧
    (((mkXOrcaCloudEvent rnd nowISO e).data.set k v).get k = some v) := by
  refine ⟨rfl, ?_⟩
  have hd : (mkXOrcaCloudEvent rnd nowISO e).data = e.data := rfl
  rw [hd]
  simp [JSObj.set, h, JSObj.get, entryGet_entrySet]

/-- C10 witness: writing `amount` in the example event's payload. -/
theorem C10_freeze_shallow_witness :
    ((mkXOrcaCloudEvent zeroRnd sampleNow orderCreatedInput).data.set
      ("amount") (JValue.num 99)).get ("amount") = some (JValue.num 99) :=
  (C10_freeze_shallow_data_mutable zeroRnd sampleNow orderCreatedInput
    ("amount") (JValue.num 99) rfl).2

/-- C8 counterexample: the empty string is a string value, yet supplying it
as `traceparent` stores `null` rather than passing it through. -/
theorem C8_empty_string_not_passed_through :
    (mkXOrcaCloudEvent zeroRnd sampleNow
      { orderCreatedInput with traceparent := some "" }).traceparent ≠
      some "" := by
  simp [mkXOrcaCloudEvent, jsOrNull]

/-- C8 amended: `traceparent`, `tracestate`, `elapsedtime`, `executionunits`
pass through unmodified for a non-empty caller string, and become `null` when
the caller supplies null, omits the field, or supplies the empty string. -/
theorem C8_trace_fields_amended (rnd : Nat → Nat) (nowISO : String)
    (e : XOrcaCloudEventInput) :
    (∀ s, s ≠ "" → e.traceparent = some s →
      (mkXOrcaCloudEvent rnd nowISO e).traceparent = some s) ∧
    ((e.traceparent = none ∨ e.traceparent = some "") →
      (mkXOrcaCloudEvent rnd nowISO e).traceparent = none) ∧
    (∀ s, s ≠ "" → e.tracestate = some s →
      (mkXOrcaCloudEvent rnd nowISO e).tracestate = some s) ∧
    ((e.tracestate = none ∨ e.tracestate = some "") →
      (mkXOrcaCloudEvent rnd nowISO e).tracestate = none) ∧
    (∀ s, s ≠ "" → e.elapsedtime = some s →
      (mkXOrcaCloudEvent rnd nowISO e).elapsedtime = some s) ∧
    ((e.elapsedtime = none ∨ e.elapsedtime = some "") →
      (mkXOrcaCloudEvent rnd nowISO e).elapsedtime = none) ∧
    (∀ s, s ≠ "" → e.executionunits = some s →
      (mkXOrcaCloudEvent rnd nowISO e).executionunits = some s) ∧
    ((e.executionunits = none ∨ e.executionunits = some "") →
      (mkXOrcaCloudEvent rnd nowISO e).executionunits = none) := by
  refine ⟨?_, ?_, ?_, ?_, ?_, ?_, ?_, ?_⟩ <;>
    first
    | (intro s hs h
       simp [mkXOrcaCloudEvent, jsOrNull, h, hs])
    | (rintro (h | h) <;> simp [mkXOrcaCloudEvent, jsOrNull, h])

/-- C8 witness: a non-empty `traceparent` passes through; an omitted
`tracestate` becomes null. -/
theorem C8_trace_fields_witness :
    (mkXOrcaCloudEvent zeroRnd sampleNow
      { orderCreatedInput with traceparent := some "00-aabb-cc-01" }).traceparent =
      some "00-aabb-cc-01" ∧
    (mkXOrcaCloudEvent zeroRnd sampleNow orderCreatedInput).tracestate = none :=
  ⟨(C8_trace_fields_amended zeroRnd sampleNow
      { orderCreatedInput with traceparent := some "00-aabb-cc-01" }).1
      ("00-aabb-cc-01") (by decide) rfl,
   ((C8_trace_fields_amended zeroRnd sampleNow orderCreatedInput).2.2.2.1)
      (Or.inl rfl)⟩

/-- C9: the constructor treats an empty-string input exactly like an absent
input on every defaulted field: an empty `id` is replaced by a fresh UUID, an
empty `datacontenttype` by the canonical default, an empty `specversion` by
`"1.0"`, and an empty `to`, `redirectto`, `traceparent`, `tracestate`,
`elapsedtime` or `executionunits` is stored as null, never as `""`. -/
theorem C9_empty_string_as_absent (rnd : Nat → Nat) (nowISO : String)
    (e : XOrcaCloudEventInput) :
    (e.id = some "" → (mkXOrcaCloudEvent rnd nowISO e).id = uuidv4 rnd) ∧
    (e.datacontenttype = some "" →
      (mkXOrcaCloudEvent rnd nowISO e).datacontenttype =
        defaultDataContentType) ∧
    (e.specversion = some "" →
      (mkXOrcaCloudEvent rnd nowISO e).specversion = "1.0") ∧
    (e.«to» = some "" → (mkXOrcaCloudEvent rnd nowISO e).«to» = none) ∧
    (e.redirectto = some "" →
      (mkXOrcaCloudEvent rnd nowISO e).redirectto = none) ∧
    (e.traceparent = some "" →
      (mkXOrcaCloudEvent rnd nowISO e).traceparent = none) ∧
    (e.tracestate = some "" →
      (mkXOrcaCloudEvent rnd nowISO e).tracestate = none) ∧
    (e.elapsedtime = some "" →
      (mkXOrcaCloudEvent rnd nowISO e).elapsedtime = none) ∧
    (e.executionunits = some "" →
      (mkXOrcaCloudEvent rnd nowISO e).executionunits = none) := by
  refine ⟨?_, ?_, ?_, ?_, ?_, ?_, ?_, ?_, ?_⟩ <;>
    (intro h; simp [mkXOrcaCloudEvent, jsOr, jsOrNull, h])

/-- C9 witness: a record supplying the empty string for every optional
field. -/
theorem C9_empty_string_witness :
    (mkXOrcaCloudEvent zeroRnd sampleNow
      { orderCreatedInput with
        id := some "", datacontenttype := some "",
        specversion := some "", «to» := some "", redirectto := some "",
        traceparent := some "", tracestate := some "", elapsedtime := some "",
        executionunits := some "" }).id = uuidv4 zeroRnd ∧
    (mkXOrcaCloudEvent zeroRnd sampleNow
      { orderCreatedInput with
        id := some "", datacontenttype := some "",
        specversion := some "", «to» := some "", redirectto := some "",
        traceparent := some "", tracestate := some "", elapsedtime := some "",
        executionunits := some "" }).«to» = none :=
  ⟨(C9_empty_string_as_absent zeroRnd sampleNow _).1 rfl,
   (C9_empty_string_as_absent zeroRnd sampleNow _).2.2.2.1 rfl⟩

/-- C3 counterexample: supplying the empty string as `id` does not preserve
it: the constructed id is a generated UUID, not the supplied string. -/
theorem C3_empty_id_not_preserved :
    (mkXOrcaCloudEvent zeroRnd sampleNow
      { orderCreatedInput with id := some "" }).id ≠ "" := by
  have h : (mkXOrcaCloudEvent zeroRnd sampleNow
      { orderCreatedInput with id := some "" }).id = uuidv4 zeroRnd := by
    simp [mkXOrcaCloudEvent, jsOr]
  rw [h]
  exact uuidv4_ne_empty zeroRnd

/-- C3 amended: a non-empty caller id is preserved exactly; an absent or
empty-string id yields the generated UUID, which has the version-4 shape and
is non-empty; and the constructed id is never empty. -/
theorem C3_id_defaulting_amended (rnd : Nat → Nat) (nowISO : String)
    (e : XOrcaCloudEventInput) :
    (∀ s, s ≠ "" → e.id = some s → (mkXOrcaCloudEvent rnd nowISO e).id = s) ∧
    (e.id = none ∨ e.id = some "" →
      (mkXOrcaCloudEvent rnd nowISO e).id = uuidv4 rnd ∧
      isUUIDv4 (uuidv4 rnd) = true ∧ uuidv4 rnd ≠ "") ∧
    (mkXOrcaCloudEvent rnd nowISO e).id ≠ "" := by
  refine ⟨?_, ?_, ?_⟩
  · intro s hs h
    simp [mkXOrcaCloudEvent, jsOr, h, hs]
  · intro h
    refine ⟨?_, uuidv4_valid rnd, uuidv4_ne_empty rnd⟩
    rcases h with h | h <;> simp [mkXOrcaCloudEvent, jsOr, h]
  · rcases he : e.id with _ | s
    · simpa [mkXOrcaCloudEvent, jsOr, he] using uuidv4_ne_empty rnd
    · by_cases hs : s = "" <;>
        simp [mkXOrcaCloudEvent, jsOr, he, hs, uuidv4_ne_empty rnd]

/-- C3 witness: an explicit non-empty id is preserved; an omitted id and a
supplied empty-string id both yield the version-4-shaped generated UUID. -/
theorem C3_id_defaulting_witness :
    (mkXOrcaCloudEvent zeroRnd sampleNow
      { orderCreatedInput with id := some "custom-id-1" }).id = "custom-id-1" ∧
    (mkXOrcaCloudEvent zeroRnd sampleNow orderCreatedInput).id =
      uuidv4 zeroRnd ∧
    (mkXOrcaCloudEvent zeroRnd sampleNow
      { orderCreatedInput with id := some "" }).id = uuidv4 zeroRnd :=
  ⟨(C3_id_defaulting_amended zeroRnd sampleNow
      { orderCreatedInput with id := some "custom-id-1" }).1
      ("custom-id-1") (by decide) rfl,
   ((C3_id_defaulting_amended zeroRnd sampleNow orderCreatedInput).2.1
      (Or.inl rfl)).1,
   ((C3_id_defaulting_amended zeroRnd sampleNow
      { orderCreatedInput with id := some "" }).2.1 (Or.inr rfl)).1⟩

/-- C1 counterexample: for the example input, the stored `source` is not the
claimed `"svc%2Forders"`: `encodeURI` leaves the reserved `/` unencoded. -/
theorem C1_source_not_reserved_encoded :
    ¬ ((mkXOrcaCloudEvent zeroRnd sampleNow orderCreatedInput).source =
      "svc%2Forders") := by
  have h : (mkXOrcaCloudEvent zeroRnd sampleNow orderCreatedInput).source =
      encodeURI ("svc/orders") := rfl
  rw [h]
  decide

/-- C1 amended: for the example input the constructed event has
`specversion = "1.0"`, the canonical default `datacontenttype`,
`source = "svc/orders"` (its `encodeURI` image: reserved characters such as
`/` stay unencoded), null `to` and `redirectto`, the generated non-empty
version-4 id, and the current time; in general `source` is stored as its
`encodeURI` image, which percent-encodes characters outside the URI set, such
as the space in `"svc name/topic"`. -/
theorem C1_end_to_end_example_amended (rnd : Nat → Nat) (nowISO : String) :
    (mkXOrcaCloudEvent rnd nowISO orderCreatedInput).specversion = "1.0" ∧
    (mkXOrcaCloudEvent rnd nowISO orderCreatedInput).datacontenttype =
      defaultDataContentType ∧
    (mkXOrcaCloudEvent rnd nowISO orderCreatedInput).source = "svc/orders" ∧
    (mkXOrcaCloudEvent rnd nowISO orderCreatedInput).«to» = none ∧
    (mkXOrcaCloudEvent rnd nowISO orderCreatedInput).redirectto = none ∧
    (mkXOrcaCloudEvent rnd nowISO orderCreatedInput).id = uuidv4 rnd ∧
    uuidv4 rnd ≠ "" ∧ isUUIDv4 (uuidv4 rnd) = true ∧
    (mkXOrcaCloudEvent rnd nowISO orderCreatedInput).time = nowISO ∧
    (∀ e : XOrcaCloudEventInput,
      (mkXOrcaCloudEvent rnd nowISO e).source = encodeURI e.source) ∧
    encodeURI ("svc name/topic") = "svc%20name/topic" := by
  refine ⟨rfl, rfl, ?_, rfl, rfl, rfl, uuidv4_ne_empty rnd, uuidv4_valid rnd,
    rfl, fun e => rfl, by decide⟩
  · show encodeURI ("svc/orders") = "svc/orders"
    decide

/-- A decimal digit character: recognized as a digit, carrying its value. -/
theorem hexChar_digit (d : Nat) (h : d < 10) :
    (hexChar d).isDigit = true ∧ digitVal (hexChar d) = d := by
  interval_cases d <;> exact ⟨by decide, by decide⟩

/-- A printed natural number starts with a digit character. -/
theorem decChars_head (n : Nat) :
    ∃ d tl, d < 10 ∧ decChars n = hexChar d :: tl := by
  induction n using Nat.strong_induction_on with
  | _ n ih =>
    rw [decChars.eq_def]
    by_cases h : n < 10
    · exact ⟨n, [], h, by simp [h]⟩
    · obtain ⟨d, tl, hd, hdec⟩ := ih (n / 10) (by omega)
      exact ⟨d, tl ++ [hexChar (n % 10)], hd, by simp [h, hdec]⟩

/-- Folding the printed digits of `n` onto an accumulator multiplies the
accumulator past `n`'s digits and adds `n`, regardless of what follows. -/
theorem readDigits_decChars (n : Nat) :
    ∃ k, 0 < k ∧ n < 10 ^ k ∧ ∀ (acc : Nat) (cs : List Char),
      readDigits acc (decChars n ++ cs) = readDigits (acc * 10 ^ k + n) cs := by
  induction n using Nat.strong_induction_on with
  | _ n ih =>
    by_cases h : n < 10
    · refine ⟨1, by omega, by omega, ?_⟩
      intro acc cs
      obtain ⟨hdig, hval⟩ := hexChar_digit n h
      rw [decChars.eq_def]
      simp only [h, if_pos, List.cons_append, List.nil_append, readDigits,
        hdig, hval]
      congr 1
      omega
    · obtain ⟨k, hk, hbound, hfold⟩ := ih (n / 10) (by omega)
      refine ⟨k + 1, by omega, ?_, ?_⟩
      · have h10 : (10:Nat) ^ (k + 1) = 10 * 10 ^ k := by ring
        omega
      · intro acc cs
        obtain ⟨hdig, hval⟩ := hexChar_digit (n % 10) (by omega)
        rw [decChars.eq_def]
        simp only [if_neg h, List.append_assoc, List.cons_append, List.nil_append]
        rw [hfold acc (hexChar (n % 10) :: cs)]
        simp only [readDigits, hdig, if_pos, hval]
        congr 1
        have hpow : acc * 10 ^ (k + 1) = acc * 10 ^ k * 10 := by ring
        rw [hpow]
        generalize acc * 10 ^ k = A
        omega

/-- `readDigits` stops in front of a non-digit. -/
theorem readDigits_stop (x : Nat) (cs : List Char)
    (h : headNotDigit cs = true) : readDigits x cs = (x, cs) := by
  cases cs with
  | nil => rfl
  | cons c tl =>
    simp only [headNotDigit, Bool.not_eq_true'] at h
    simp [readDigits, h]

/-- Parsing a printed natural number recovers it, whenever no digit
follows. -/
theorem readNat_decChars (n : Nat) (rest : List Char)
    (hr : headNotDigit rest = true) :
    readNat (decChars n ++ rest) = some (n, rest) := by
  obtain ⟨d, tl, hd, hdec⟩ := decChars_head n
  obtain ⟨k, _, _, hfold⟩ := readDigits_decChars n
  have hdig := (hexChar_digit d hd).1
  rw [hdec, List.cons_append, readNat, if_pos hdig, ← List.cons_append, ← hdec,
    hfold 0 rest, readDigits_stop _ _ hr]
  simp

/-- Reading a hex digit character back yields its nibble value. -/
theorem hexNibble_hexChar (n : Nat) (h : n < 16) :
    hexNibble (hexChar n) = some n := by
  interval_cases n <;> decide

/-- A character equals `Char.ofNat` of its code. -/
theorem char_of_code (c : Char) (n : Nat) (h : c.toNat = n) :
    Char.ofNat n = c := by
  subst h
  exact Char.ofNat_toNat c

/-- Parsing one escaped character undoes the escape, whatever follows. -/
theorem readStringBody_esc (c : Char) (rest : List Char) :
    readStringBody (escJChar c ++ rest) =
      (readStringBody rest).map (fun p => (c :: p.1, p.2)) := by
  by_cases hq : c = '"'
  · subst hq
    rw [show escJChar '"' ++ rest = '\\' :: '"' :: rest from rfl,
      readStringBody.eq_def]
    simp [unescJ]
  by_cases hb : c = '\\'
  · subst hb
    rw [show escJChar '\\' ++ rest = '\\' :: '\\' :: rest from rfl,
      readStringBody.eq_def]
    simp [unescJ]
  by_cases h8 : c.toNat = 8
  · have hesc : escJChar c ++ rest = '\\' :: 'b' :: rest := by
      simp [escJChar, hq, hb, h8]
    rw [hesc, readStringBody.eq_def]
    simp [unescJ]
    rw [char_of_code c 8 h8]
  by_cases h9 : c.toNat = 9
  · have hesc : escJChar c ++ rest = '\\' :: 't' :: rest := by
      simp [escJChar, hq, hb, h8, h9]
    rw [hesc, readStringBody.eq_def]
    simp [unescJ]
    rw [char_of_code c 9 h9]
  by_cases h10 : c.toNat = 10
  · have hesc : escJChar c ++ rest = '\\' :: 'n' :: rest := by
      simp [escJChar, hq, hb, h8, h9, h10]
    rw [hesc, readStringBody.eq_def]
    simp [unescJ]
    rw [char_of_code c 10 h10]
  by_cases h12 : c.toNat = 12
  · have hesc : escJChar c ++ rest = '\\' :: 'f' :: rest := by
      simp [escJChar, hq, hb, h8, h9, h10, h12]
    rw [hesc, readStringBody.eq_def]
    simp [unescJ]
    rw [char_of_code c 12 h12]
  by_cases h13 : c.toNat = 13
  · have hesc : escJChar c ++ rest = '\\' :: 'r' :: rest := by
      simp [escJChar, hq, hb, h8, h9, h10, h12, h13]
    rw [hesc, readStringBody.eq_def]
    simp [unescJ]
    rw [char_of_code c 13 h13]
  by_cases hc : c.toNat < 32
  · have hesc : escJChar c ++ rest = '\\' :: 'u' :: '0' :: '0' ::
        hexChar (c.toNat / 16) :: hexChar (c.toNat % 16) :: rest := by
      simp [escJChar, hq, hb, h8, h9, h10, h12, h13, hc]
    have hhi : hexNibble (hexChar (c.toNat / 16)) = some (c.toNat / 16) :=
      hexNibble_hexChar _ (by omega)
    have hlo : hexNibble (hexChar (c.toNat % 16)) = some (c.toNat % 16) :=
      hexNibble_hexChar _ (by omega)
    have hval : ((0 * 16 + 0) * 16 + c.toNat / 16) * 16 + c.toNat % 16 =
        c.toNat := by omega
    have hval2 : c.toNat / 16 * 16 + c.toNat % 16 = c.toNat := by omega
    have h0 : hexNibble '0' = some 0 := by decide
    rw [hesc, readStringBody.eq_def]
    simp [h0, hhi, hlo, hval, hval2, Char.ofNat_toNat]
  · have hesc : escJChar c ++ rest = c :: rest := by
      simp [escJChar, hq, hb, h8, h9, h10, h12, h13, hc]
    rw [hesc, readStringBody.eq_def]
    simp [hq, hb]

/-- Parsing an escaped string body stops exactly at the closing quote and
recovers the original characters. -/
theorem readStringBody_escList (l : List Char) (rest : List Char) :
    readStringBody (escJString l ++ ('"' :: rest)) = some (l, rest) := by
  induction l with
  | nil =>
    show readStringBody ('"' :: rest) = some ([], rest)
    rw [readStringBody.eq_def]
    simp
  | cons c tl ih =>
    have hstep : escJString (c :: tl) = escJChar c ++ escJString tl := rfl
    rw [hstep, List.append_assoc, readStringBody_esc, ih]
    rfl

/-- A string literal is its own data's `String.mk`. -/
theorem string_mk_data (s : String) : String.mk s.data = s :=
  rfl

/-- Every printed value starts with a character that is not a closing
bracket. -/
theorem printJ_head (v : JValue) :
    ∃ c tl, printJ v = c :: tl ∧ c ≠ ']' := by
  cases v with
  | null => exact ⟨'n', _, rfl, by decide⟩
  | bool b => cases b with
    | true => exact ⟨'t', _, rfl, by decide⟩
    | false => exact ⟨'f', _, rfl, by decide⟩
  | str s => exact ⟨'"', _, rfl, by decide⟩
  | arr items => cases items with
    | nil => exact ⟨'[', _, rfl, by decide⟩
    | cons v tl => exact ⟨'[', _, rfl, by decide⟩
  | obj ms => cases ms with
    | nil => exact ⟨'{', _, rfl, by decide⟩
    | cons m tl =>
      obtain ⟨k, v⟩ := m
      exact ⟨'{', _, rfl, by decide⟩
  | num i =>
    by_cases hi : i < 0
    · exact ⟨'-', decChars i.natAbs, by simp [printJ, intChars, hi], by decide⟩
    · obtain ⟨d, tl, hd, hdec⟩ := decChars_head i.natAbs
      refine ⟨hexChar d, tl, by simp [printJ, intChars, hi, hdec], ?_⟩
      interval_cases d <;> decide

/-- A digit-headed input parses through the numeric fallback arm. -/
theorem jval_digit (f : Nat) (c : Char) (cs : List Char)
    (h : 48 ≤ c.toNat ∧ c.toNat ≤ 57) :
    jval (f + 1) (c :: cs) =
      (readNat (c :: cs)).map (fun p => (JValue.num (p.1 : Int), p.2)) := by
  obtain ⟨h1, h2⟩ := h
  have hc : c.toNat = 48 ∨ c.toNat = 49 ∨ c.toNat = 50 ∨ c.toNat = 51 ∨
      c.toNat = 52 ∨ c.toNat = 53 ∨ c.toNat = 54 ∨ c.toNat = 55 ∨
      c.toNat = 56 ∨ c.toNat = 57 := by omega
  rcases hc with h' | h' | h' | h' | h' | h' | h' | h' | h' | h' <;>
    (rw [← char_of_code c _ h']
     rfl)

mutual

/-- Parsing a printed value recovers it exactly, for any fuel beyond the
printed length, whenever the remainder does not begin with a digit. -/
theorem rt_val : ∀ (fuel : Nat) (v : JValue) (rest : List Char),
    (printJ v).length < fuel → headNotDigit rest = true →
    jval fuel (printJ v ++ rest) = some (v, rest)
  | 0, _, _, hf, _ => absurd hf (Nat.not_lt_zero _)
  | f + 1, JValue.null, rest, _, _ => by
    show jval (f + 1) ('n' :: 'u' :: 'l' :: 'l' :: rest) = some (JValue.null, rest)
    simp only [jval]
  | f + 1, JValue.bool true, rest, _, _ => by
    show jval (f + 1) ('t' :: 'r' :: 'u' :: 'e' :: rest) =
      some (JValue.bool true, rest)
    simp only [jval]
  | f + 1, JValue.bool false, rest, _, _ => by
    show jval (f + 1) ('f' :: 'a' :: 'l' :: 's' :: 'e' :: rest) =
      some (JValue.bool false, rest)
    simp only [jval]
  | f + 1, JValue.num i, rest, hf, hr => by
    by_cases hi : i < 0
    · have harg : printJ (JValue.num i) ++ rest =
          '-' :: (decChars i.natAbs ++ rest) := by
        simp [printJ, intChars, hi]
      rw [harg]
      simp only [jval]
      rw [readNat_decChars _ _ hr]
      have hcast : ((i.natAbs : Int)) = -i := by omega
      simp [hcast]
    · obtain ⟨d, tl, hd, hdec⟩ := decChars_head i.natAbs
      have harg : printJ (JValue.num i) ++ rest = decChars i.natAbs ++ rest := by
        simp [printJ, intChars, hi]
      have hread := readNat_decChars i.natAbs rest hr
      rw [harg, hdec, List.cons_append]
      rw [hdec, List.cons_append] at hread
      have hcast : ((i.natAbs : Int)) = i := by omega
      interval_cases d <;>
        (simp only [hexChar] at hread ⊢
         rw [jval_digit _ _ _ (by decide), hread]
         simp [hcast])
  | f + 1, JValue.str s, rest, _, _ => by
    have harg : printJ (JValue.str s) ++ rest =
        '"' :: (escJString s.data ++ ('"' :: rest)) := by
      simp [printJ, printJString]
    rw [harg]
    simp only [jval]
    rw [readStringBody_escList]
    simp [string_mk_data]
  | f + 1, JValue.arr [], rest, _, _ => by
    show jval (f + 1) ('[' :: ']' :: rest) = some (JValue.arr [], rest)
    simp only [jval]
    simp
  | f + 1, JValue.arr (v :: tl), rest, hf, _ => by
    obtain ⟨c, ctl, hpv, hcne⟩ := printJ_head v
    have harg : printJ (JValue.arr (v :: tl)) ++ rest =
        '[' :: (c :: (ctl ++ (sepItems tl ++ (']' :: rest)))) := by
      simp [printJ, hpv]
    have hlist : (printJ v ++ sepItems tl) ++ (']' :: rest) =
        c :: (ctl ++ (sepItems tl ++ (']' :: rest))) := by
      simp [hpv]
    have hfi : (printJ v ++ sepItems tl).length + 1 < f := by
      simp only [printJ, List.length_cons, List.length_append,
        List.length_singleton] at hf
      simp only [List.length_append]
      omega
    rw [harg]
    simp only [jval]
    rw [if_neg hcne, ← hlist, rt_items f v tl rest hfi]
    rfl
  | f + 1, JValue.obj [], rest, _, _ => by
    show jval (f + 1) ('{' :: '}' :: rest) = some (JValue.obj [], rest)
    simp only [jval]
    simp
  | f + 1, JValue.obj ((k, v) :: tl), rest, hf, _ => by
    have harg : printJ (JValue.obj ((k, v) :: tl)) ++ rest =
        '{' :: ('"' :: (escJString k.data ++
          ('"' :: (':' :: (printJ v ++ (sepMems tl ++ ('}' :: rest))))))) := by
      simp [printJ, printJString]
    have hlist :
        (printJString k ++ (':' :: (printJ v ++ sepMems tl))) ++ ('}' :: rest) =
        '"' :: (escJString k.data ++
          ('"' :: (':' :: (printJ v ++ (sepMems tl ++ ('}' :: rest)))))) := by
      simp [printJString]
    have hfm : (printJString k ++ (':' :: (printJ v ++ sepMems tl))).length + 1 <
        f := by
      simp only [printJ, printJString, List.length_cons, List.length_append,
        List.length_singleton] at hf ⊢
      omega
    rw [harg]
    simp only [jval]
    rw [if_neg (by decide : ¬('"' = '}')), ← hlist, rt_mems f k v tl rest hfm]
    rfl

/-- Parsing the printed elements of a non-empty array recovers them. -/
theorem rt_items : ∀ (fuel : Nat) (v : JValue) (tl : List JValue)
    (rest : List Char),
    (printJ v ++ sepItems tl).length + 1 < fuel →
    jitems fuel ((printJ v ++ sepItems tl) ++ (']' :: rest)) =
      some (v :: tl, rest)
  | 0, _, _, _, hf => absurd hf (Nat.not_lt_zero _)
  | f + 1, v, [], rest, hf => by
    have hfv : (printJ v).length < f := by
      simp only [sepItems, List.length_append, List.length_nil] at hf
      omega
    have harg : (printJ v ++ sepItems []) ++ (']' :: rest) =
        printJ v ++ (']' :: rest) := by
      simp [sepItems]
    rw [harg]
    simp only [jitems]
    rw [rt_val f v (']' :: rest) hfv (by rfl)]
    rfl
  | f + 1, v, u :: tl2, rest, hf => by
    have harg : (printJ v ++ sepItems (u :: tl2)) ++ (']' :: rest) =
        printJ v ++ (',' :: ((printJ u ++ sepItems tl2) ++ (']' :: rest))) := by
      simp [sepItems]
    have hfv : (printJ v).length < f := by
      simp only [sepItems, List.length_append, List.length_cons] at hf
      omega
    have hfu : (printJ u ++ sepItems tl2).length + 1 < f := by
      simp only [sepItems, List.length_append, List.length_cons] at hf ⊢
      omega
    rw [harg]
    simp only [jitems]
    rw [rt_val f v (',' :: ((printJ u ++ sepItems tl2) ++ (']' :: rest))) hfv
      (by rfl)]
    simp only []
    rw [rt_items f u tl2 rest hfu]
    rfl

/-- Parsing the printed members of a non-empty object recovers them. -/
theorem rt_mems : ∀ (fuel : Nat) (k : String) (v : JValue)
    (tl : List (String × JValue)) (rest : List Char),
    (printJString k ++ (':' :: (printJ v ++ sepMems tl))).length + 1 < fuel →
    jmems fuel ((printJString k ++ (':' :: (printJ v ++ sepMems tl))) ++
      ('}' :: rest)) = some ((k, v) :: tl, rest)
  | 0, _, _, _, _, hf => absurd hf (Nat.not_lt_zero _)
  | f + 1, k, v, [], rest, hf => by
    have hfv : (printJ v).length < f := by
      simp only [printJString, sepMems, List.length_cons, List.length_append,
        List.length_nil] at hf
      omega
    have harg :
        (printJString k ++ (':' :: (printJ v ++ sepMems []))) ++ ('}' :: rest) =
        '"' :: (escJString k.data ++
          ('"' :: (':' :: (printJ v ++ ('}' :: rest))))) := by
      simp [printJString, sepMems]
    rw [harg]
    simp only [jmems]
    rw [readStringBody_escList]
    simp only []
    rw [rt_val f v ('}' :: rest) hfv (by rfl)]
    simp [string_mk_data]
  | f + 1, k, v, (k2, v2) :: tl2, rest, hf => by
    have hfv : (printJ v).length < f := by
      simp only [printJString, sepMems, List.length_cons,
        List.length_append] at hf
      omega
    have hfm2 :
        (printJString k2 ++ (':' :: (printJ v2 ++ sepMems tl2))).length + 1 <
        f := by
      simp only [printJString, sepMems, List.length_cons,
        List.length_append] at hf ⊢
      omega
    have harg :
        (printJString k ++ (':' :: (printJ v ++ sepMems ((k2, v2) :: tl2)))) ++
          ('}' :: rest) =
        '"' :: (escJString k.data ++ ('"' :: (':' :: (printJ v ++
          (',' :: ((printJString k2 ++ (':' :: (printJ v2 ++ sepMems tl2))) ++
            ('}' :: rest))))))) := by
      simp [printJString, sepMems]
    rw [harg]
    simp only [jmems]
    rw [readStringBody_escList]
    simp only []
    rw [rt_val f v
      (',' :: ((printJString k2 ++ (':' :: (printJ v2 ++ sepMems tl2))) ++
        ('}' :: rest))) hfv (by rfl)]
    simp only []
    rw [rt_mems f k2 v2 tl2 rest hfm2]
    simp [string_mk_data]

end

/-- Parsing a stringified value recovers it exactly. -/
theorem jparse_stringify (v : JValue) : JSONParse (stringifyJ v) = some v := by
  have h := rt_val ((printJ v).length + 1) v [] (by omega) rfl
  rw [List.append_nil] at h
  unfold JSONParse stringifyJ
  rw [data_mk, h]

/-- C7: `JSON.parse` of `toString()` recovers exactly the `toJSON()`
snapshot: for every event, parsing the serialized string yields a value
deep-equal to the plain-object snapshot. -/
theorem C7_serialization_round_trip (ev : XOrcaCloudEvent) :
    JSONParse (XOrcaCloudEvent.toString ev) = some (JValue.obj ev.toJSON) :=
  jparse_stringify (JValue.obj ev.toJSON)
